import Mathlib

/-!
Shallow embedding of the ApplicationVolumeReplication controller
(`controllers/applicationvolumereplication_controller.go`) and proofs about it.

Modelling conventions:
* Go slices become `List`, Go maps become association lists (`List (key × value)`);
  a nil Go map is `Option.none` where nil-ness is observable (labels, statuses),
  otherwise nil and empty coincide.
* `metav1.Time` becomes `Nat`: `Before` is `<` and Go `==` on times is `=`.
* `metav1.ConditionStatus` and condition types are the literal strings the Go
  code compares against.
* External I/O (the controller-runtime client, the S3 store, the placement
  resolver) is modelled by an `Env` record of oracle functions; each remote
  call site consults the oracle, and every write issued is recorded in a
  `List Op` trace so that claims about "exactly one create" etc. are statable.
* JSON marshalling of manifests is modelled by opaque payload strings.
* `sort.Slice` sorts the caller's slice in place; the in-place mutation of
  `mw.Status.Conditions` is modelled by returning the mutated `ManifestWork`
  alongside the boolean result of `IsManifestInAppliedState`.
-/

namespace Ramen

/-- `metav1.Condition`: type, status and last transition time (`metav1.Time`
modelled as `Nat`). -/
structure Condition where
  condType : String
  status : String
  lastTransitionTime : Nat
deriving DecidableEq

/-- `metav1.ConditionTrue`. -/
def ConditionTrue : String := "True"

/-- `ocmworkv1.WorkApplied`. -/
def WorkApplied : String := "Applied"

/-- `ocmworkv1.WorkDegraded`. -/
def WorkDegraded : String := "Degraded"

/-- `ocmworkv1.ManifestWorkSpec`: the workload manifests, each an opaque
serialized payload. -/
structure ManifestWorkSpec where
  manifests : List String
deriving DecidableEq

/-- `ocmworkv1.ManifestWork`: metadata name/namespace, labels, spec, and
`Status.Conditions`. -/
structure ManifestWork where
  name : String
  mwNamespace : String
  labels : List (String × String)
  spec : ManifestWorkSpec
  conditions : List Condition
deriving DecidableEq

/-- The descending-timestamp order used by `getMostRecentConditions`'s
`sort.Slice` comparator: `a` precedes `b` when `b`'s time is not after `a`'s. -/
def condGE (a b : Condition) : Prop :=
  b.lastTransitionTime ≤ a.lastTransitionTime

instance : DecidableRel condGE := fun a b =>
  inferInstanceAs (Decidable (b.lastTransitionTime ≤ a.lastTransitionTime))

instance : IsTotal Condition condGE :=
  ⟨fun a b => Nat.le_total b.lastTransitionTime a.lastTransitionTime⟩

instance : IsTrans Condition condGE :=
  ⟨fun _ _ _ h1 h2 => Nat.le_trans h2 h1⟩

/-- The in-place `sort.Slice(conditions, ...)`, descending by timestamp. -/
def sortConditionsDesc (conditions : List Condition) : List Condition :=
  List.insertionSort condGE conditions

/-- `getMostRecentConditions`: sort descending by timestamp and keep the
prefix sharing the most recent timestamp (the Go loop `break`s at the first
older condition). Go indexes `conditions[0]` after the sort; callers guard
non-emptiness, so the `[]` case is unreachable there. -/
def getMostRecentConditions (conditions : List Condition) : List Condition :=
  match sortConditionsDesc conditions with
  | [] => []
  | m :: rest =>
    (m :: rest).takeWhile (fun c => c.lastTransitionTime == m.lastTransitionTime)

/-- `filterByConditionStatus`: keep the conditions whose status equals the
given status. -/
def filterByConditionStatus (conditions : List Condition) (status : String) :
    List Condition :=
  conditions.filter (fun c => c.status == status)

/-- The `for`/`else if` loop body of `IsManifestInAppliedState`, threading the
`(applied, degraded)` flags. -/
def appliedDegradedStep (p : Bool × Bool) (condition : Condition) : Bool × Bool :=
  if condition.condType == WorkApplied then (true, p.2)
  else if condition.condType == WorkDegraded then (p.1, true)
  else p

/-- `IsManifestInAppliedState`. The first component is the returned boolean;
the second is the `ManifestWork` after the call, whose `Status.Conditions`
slice has been reordered in place by `getMostRecentConditions`'s `sort.Slice`
(only when the list is non-empty, since the sort only runs then). -/
def IsManifestInAppliedState (mw : ManifestWork) : Bool × ManifestWork :=
  let conditions := mw.conditions
  if conditions.length > 0 then
    let recentConditions :=
      filterByConditionStatus (getMostRecentConditions conditions) ConditionTrue
    let flags := recentConditions.foldl appliedDegradedStep (false, false)
    let applied := if flags.2 then false else flags.1
    (applied, { mw with conditions := sortConditionsDesc conditions })
  else
    (false, mw)

/-- The maximum `lastTransitionTime` occurring in a list of conditions
(`0` for the empty list); used to state the most-recent-subset property. -/
def maxTimestamp : List Condition → Nat
  | [] => 0
  | c :: cs => Nat.max c.lastTransitionTime (maxTimestamp cs)

/-! ### Constants of the controller and of the imported APIs -/

/-- `ManifestWorkNameFormat` instantiated: `"%s-%s-%s-mw"` applied to the
subscription name, namespace and manifest-work type. -/
def manifestWorkName (name ns mwType : String) : String :=
  name ++ "-" ++ ns ++ "-" ++ mwType ++ "-mw"

/-- `RamenDRLabelName`. -/
def RamenDRLabelName : String := "ramendr"

/-- `MWTypeVRG`. -/
def MWTypeVRG : String := "vrg"

/-- `MWTypePV`. -/
def MWTypePV : String := "pv"

/-- `subv1.LabelSubscriptionPause` (constant imported from the subscription
API). -/
def LabelSubscriptionPause : String := "subscription-pause"

/-- `subv1.SubscriptionSubscribed` (imported constant). -/
def SubscriptionSubscribed : String := "Subscribed"

/-- `subv1.SubscriptionPropagated` (imported constant). -/
def SubscriptionPropagated : String := "Propagated"

/-! ### Go-map helpers on association lists -/

/-- Read of a Go `map[string]string` (or a read through a nil map): missing
keys yield the zero value `""`. -/
def mapGetD (m : List (String × String)) (k : String) : String :=
  match m.lookup k with
  | some v => v
  | none => ""

/-- Go map assignment `m[k] = v`: replace the binding of `k` if present,
otherwise append it. -/
def mapSet {α : Type} (m : List (String × α)) (k : String) (v : α) :
    List (String × α) :=
  match m with
  | [] => [(k, v)]
  | (k0, v0) :: rest => if k0 = k then (k, v) :: rest else (k0, v0) :: mapSet rest k v

/-- ASCII lower-casing of one character (the label values the controller
compares are ASCII). -/
def toLowerChar (c : Char) : Char :=
  if 65 ≤ c.toNat ∧ c.toNat ≤ 90 then Char.ofNat (c.toNat + 32) else c

/-- `strings.EqualFold`, modelled as equality after character-wise ASCII
lower-casing. -/
def eqFold (a b : String) : Bool :=
  a.data.map toLowerChar == b.data.map toLowerChar

/-! ### Data model: subscriptions, placement, the AVR object -/

/-- `plrv1.PlacementRule`: name and `Spec.ClusterReplicas` (a nullable
`*int32`). The `GenericPlacementFields` are only ever passed to the external
resolver, which the `Env` oracle models, so they are not reproduced here. -/
structure PlacementRule where
  name : String
  prNamespace : String
  clusterReplicas : Option Int
deriving DecidableEq

/-- `spokeClusterV1.ManagedCluster` (only the name is consulted). -/
structure ManagedCluster where
  name : String
deriving DecidableEq

/-- `Placement.PlacementRef`: referenced placement-rule name/namespace. -/
structure PlacementRef where
  name : String
  refNamespace : String
deriving DecidableEq

/-- `subv1.Placement`: the `Local` flag (nullable) and the placement
reference (nullable). -/
structure Placement where
  localPlacement : Option Bool
  placementRef : Option PlacementRef
deriving DecidableEq

/-- Subscription status: `Phase` and `Statuses`, a nullable Go map from
cluster name to a nullable per-cluster status. Only nil-ness of each entry's
value is ever consulted, so the value is modelled as `Bool` (`true` means the
entry's value is non-nil). -/
structure SubscriptionStatus where
  phase : String
  statuses : Option (List (String × Bool))
deriving DecidableEq

/-- `subv1.Subscription`: name, namespace, a nullable label map, a nullable
placement, and status. -/
structure Subscription where
  name : String
  subNamespace : String
  labels : Option (List (String × String))
  placement : Option Placement
  status : SubscriptionStatus
deriving DecidableEq

/-- `ramendrv1alpha1.SubscriptionPlacementDecision`. -/
structure SubscriptionPlacementDecision where
  homeCluster : String
  peerCluster : String
deriving DecidableEq

/-- `ramendrv1alpha1.ApplicationVolumeReplicationSpec`: the per-subscription
failover-cluster overrides and the S3 coordinates. -/
structure AVRSpec where
  failoverClusters : List (String × String)
  s3Endpoint : String
  s3SecretName : String
deriving DecidableEq

/-- `ramendrv1alpha1.ApplicationVolumeReplicationStatus`: the decision map. -/
structure AVRStatus where
  decisions : List (String × SubscriptionPlacementDecision)
deriving DecidableEq

/-- `ramendrv1alpha1.ApplicationVolumeReplication`. -/
structure AVR where
  name : String
  avrNamespace : String
  spec : AVRSpec
  status : AVRStatus
deriving DecidableEq

/-- `corev1.PersistentVolume`, reduced to the opaque payload its JSON
marshalling produces. -/
structure PersistentVolume where
  payload : String
deriving DecidableEq

/-! ### The effect model: oracles for remote calls, a trace of writes -/

/-- One write issued against the external stores. -/
inductive Op where
  | createOp : ManifestWork → String → Op
  | updateOp : ManifestWork → String → Op
  | deleteOp : String → String → Op
  | subUpdateOp : Subscription → Op
deriving DecidableEq

/-- Oracles for every external call the reconciler makes. `getMW name ns`
models `Client.Get` of a `ManifestWork`, already folding IsNotFound into
`.ok none`; the `...Res` fields model the outcome of the corresponding write
calls; `placeByGenericPlacmentFields` models the external resolver, its result
list carrying the (arbitrary) Go map iteration order. -/
structure Env where
  getMW : String → String → Except String (Option ManifestWork)
  getPlacementRule : String → String → Except String PlacementRule
  placeByGenericPlacmentFields : PlacementRule → Except String (List ManagedCluster)
  downloadPVs : String → String → String → String → Except String (List PersistentVolume)
  createRes : Except String Unit
  updateRes : Except String Unit
  deleteRes : Except String Unit
  subUpdateRes : Except String Unit
  statusUpdateRes : Except String Unit

/-! ### Manifest generation (pure) -/

/-- `generateManifest`: JSON marshalling modelled as the opaque payload
itself (marshalling of these fixed Go types cannot fail). -/
def generateManifest (objJSON : String) : String := objJSON

/-- Serialized form of the constant `ClusterRole` built by
`generateVRGClusterRoleManifest`, kept opaque. -/
def vrgClusterRolePayload : String := "ClusterRole volrepgroup-edit"

/-- Serialized form of the constant `ClusterRoleBinding` built by
`generateVRGClusterRoleBindingManifest`, kept opaque. -/
def vrgClusterRoleBindingPayload : String := "ClusterRoleBinding volrepgroup-edit"

/-- Serialized form of the `VolumeReplicationGroup` built by
`generateVRGManifest`, kept opaque but dependent on its four parameters. -/
def vrgPayload (name ns s3Endpoint s3SecretName : String) : String :=
  "VolumeReplicationGroup " ++ name ++ " " ++ ns ++ " " ++ s3Endpoint ++ " " ++ s3SecretName

/-- `newManifestWork`: a fresh `ManifestWork` with the given name, managed
cluster namespace, labels and manifests (no status yet). -/
def newManifestWork (name mcNamespace : String) (labels : List (String × String))
    (manifests : List String) : ManifestWork :=
  { name := name, mwNamespace := mcNamespace, labels := labels,
    spec := { manifests := manifests }, conditions := [] }

/-- `generateVRGRolesManifestWork`: the two constant role manifests wrapped in
a work named `"ramendr-vrg-roles"` in the given namespace. -/
def generateVRGRolesManifestWork (ns : String) : ManifestWork :=
  newManifestWork "ramendr-vrg-roles" ns []
    [generateManifest vrgClusterRolePayload, generateManifest vrgClusterRoleBindingPayload]

/-- `generatePVManifest`: one manifest per PV, order-preserving. -/
def generatePVManifest (pvList : List PersistentVolume) : List String :=
  pvList.map (fun pv => generateManifest pv.payload)

/-- `generatePVManifestWork`. -/
def generatePVManifestWork (name ns homeClusterName : String)
    (pvList : List PersistentVolume) : ManifestWork :=
  newManifestWork (manifestWorkName name ns MWTypePV) homeClusterName
    [("app", "PV")] (generatePVManifest pvList)

/-- `generateVRGManifestWork`. -/
def generateVRGManifestWork (name ns homeCluster s3Endpoint s3SecretName : String) :
    ManifestWork :=
  newManifestWork (manifestWorkName name ns MWTypeVRG) homeCluster
    [("app", "VRG")] [generateManifest (vrgPayload name ns s3Endpoint s3SecretName)]

/-! ### The work convergence engine -/

/-- `createOrUpdateManifestWork`: read the existing work by name; if absent,
create; if present with a deep-equal spec, do nothing; otherwise copy the
desired spec into the found object and update it. Returns the call outcome
and the trace of writes issued. -/
def createOrUpdateManifestWork (env : Env) (mw : ManifestWork)
    (managedClusternamespace : String) : Except String Unit × List Op :=
  match env.getMW mw.name managedClusternamespace with
  | .error e => (.error e, [])
  | .ok none => (env.createRes, [Op.createOp mw managedClusternamespace])
  | .ok (some foundMW) =>
    if foundMW.spec = mw.spec then (.ok (), [])
    else (env.updateRes,
      [Op.updateOp { foundMW with spec := mw.spec } managedClusternamespace])

/-- `createOrUpdateVRGRolesManifestWork`. -/
def createOrUpdateVRGRolesManifestWork (env : Env) (ns : String) :
    Except String Unit × List Op :=
  createOrUpdateManifestWork env (generateVRGRolesManifestWork ns) ns

/-- `createOrUpdateVRGManifestWork`. -/
def createOrUpdateVRGManifestWork (env : Env)
    (name ns homeCluster s3Endpoint s3SecretName : String) :
    Except String Unit × List Op :=
  createOrUpdateManifestWork env
    (generateVRGManifestWork name ns homeCluster s3Endpoint s3SecretName) homeCluster

/-- `createOrUpdatePVsManifestWork`. -/
def createOrUpdatePVsManifestWork (env : Env) (name ns homeClusterName : String)
    (pvList : List PersistentVolume) : Except String Unit × List Op :=
  createOrUpdateManifestWork env (generatePVManifestWork name ns homeClusterName pvList)
    homeClusterName

/-! ### Lookup, deletion, restore -/

/-- `findManifestWork`: for a non-empty home cluster, fetch the work with the
deterministic name in the cluster's namespace (not-found is `none`); for an
empty home cluster, `none` without any call. -/
def findManifestWork (env : Env) (subscription : Subscription)
    (homeCluster mwType : String) : Except String (Option ManifestWork) :=
  if homeCluster = "" then .ok none
  else env.getMW (manifestWorkName subscription.name subscription.subNamespace mwType)
    homeCluster

/-- `vrgManifestWorkAlreadyExists`: true when the AVR status already records
a decision for the subscription and the VRG work exists on its home cluster. -/
def vrgManifestWorkAlreadyExists (env : Env) (avr : AVR)
    (subscription : Subscription) : Except String Bool :=
  match avr.status.decisions.lookup subscription.name with
  | none => .ok false
  | some d =>
    match findManifestWork env subscription d.homeCluster MWTypeVRG with
    | .error e => .error e
    | .ok none => .ok false
    | .ok (some _) => .ok true

/-- `deleteExistingManfiestWork`: if the AVR records a decision for the
subscription, fetch the VRG work on the recorded home cluster and delete it
(not-found is benign). -/
def deleteExistingManfiestWork (env : Env) (avr : AVR)
    (subscription : Subscription) : Except String Unit × List Op :=
  match avr.status.decisions.lookup subscription.name with
  | none => (.ok (), [])
  | some d =>
    let vrgMWName := manifestWorkName subscription.name subscription.subNamespace MWTypeVRG
    match env.getMW vrgMWName d.homeCluster with
    | .error e => (.error e, [])
    | .ok none => (.ok (), [])
    | .ok (some mw) => (env.deleteRes, [Op.deleteOp mw.name d.homeCluster])

/-- `constructBucketName`. Modelled from the spec: the function lives in the
S3 part of the repository, which is not among the provided sources; the spec
says the bucket name is the namespace and name joined and lower-cased. Claims
depend only on it being a deterministic function of (namespace, name). -/
def constructBucketName (ns name : String) : String :=
  (ns ++ "-" ++ name).toLower

/-- `listPVsFromS3Store`: delegate to the S3 oracle, passing the AVR's S3
endpoint and secret name, the caller tag (the AVR name) and the deterministic
bucket name, exactly the arguments `DownloadPVs` receives. -/
def listPVsFromS3Store (env : Env) (avr : AVR) (subscription : Subscription) :
    Except String (List PersistentVolume) :=
  env.downloadPVs avr.spec.s3Endpoint avr.spec.s3SecretName avr.name
    (constructBucketName subscription.subNamespace subscription.name)

/-- `restorePVFromBackup`: fetch the PV set from the store; an empty set is a
no-op success; otherwise converge the PV manifest work onto the home cluster. -/
def restorePVFromBackup (env : Env) (avr : AVR) (subscription : Subscription)
    (homeCluster : String) : Except String Unit × List Op :=
  match listPVsFromS3Store env avr subscription with
  | .error e => (.error e, [])
  | .ok pvList =>
    if pvList.length = 0 then (.ok (), [])
    else createOrUpdatePVsManifestWork env subscription.name subscription.subNamespace
      homeCluster pvList

/-! ### The paused path -/

/-- `isSubsriptionPausedForDR` (sic): the DR-state label equals `"protected"`
and the pause label equals `"true"`, both case-insensitively and non-empty, on
a non-nil label map. -/
def isSubsriptionPausedForDR (labels : Option (List (String × String))) : Bool :=
  match labels with
  | none => false
  | some l =>
    !(mapGetD l RamenDRLabelName == "") &&
    eqFold (mapGetD l RamenDRLabelName) "protected" &&
    !(mapGetD l LabelSubscriptionPause == "") &&
    eqFold (mapGetD l LabelSubscriptionPause) "true"

/-- `findNextHomeCluster`: the operator-declared failover override for this
subscription name (zero value `""` when absent). -/
def findNextHomeCluster (avr : AVR) (subscription : Subscription) : String :=
  mapGetD avr.spec.failoverClusters subscription.name

/-- `processPausedSubscription`: locate the failover target, reuse an already
existing PV work if present, otherwise delete the stale VRG work and issue a
restore. Returns the (new home cluster, optional already-found PV work) and
the trace of writes. -/
def processPausedSubscription (env : Env) (avr : AVR)
    (subscription : Subscription) :
    Except String (String × Option ManifestWork) × List Op :=
  let newHomeCluster := findNextHomeCluster avr subscription
  if newHomeCluster = "" then (.error "failed to find new home cluster", [])
  else
    match findManifestWork env subscription newHomeCluster MWTypePV with
    | .error e => (.error e, [])
    | .ok (some pvMW) => (.ok (newHomeCluster, some pvMW), [])
    | .ok none =>
      match deleteExistingManfiestWork env avr subscription with
      | (.error e, ops) => (.error e, ops)
      | (.ok _, ops) =>
        match restorePVFromBackup env avr subscription newHomeCluster with
        | (.error e, ops2) => (.error e, ops ++ ops2)
        | (.ok _, ops2) => (.ok (newHomeCluster, none), ops ++ ops2)

/-- `waitForManifest`: with no PV work in hand, re-fetch it (a fetch error
means wait); then wait exactly when a PV work is present but not yet in
applied state. -/
def waitForManifest (env : Env) (subscription : Subscription)
    (clusterName : String) (pvMW : Option ManifestWork) : Bool :=
  match pvMW with
  | none =>
    match findManifestWork env subscription clusterName MWTypePV with
    | .error _ => true
    | .ok none => false
    | .ok (some m) => !(IsManifestInAppliedState m).1
  | some m => !(IsManifestInAppliedState m).1

/-- `unpauseSubscription`: a nil label map is an error with no update issued;
otherwise set the pause label to `"false"` and update the subscription.
Returns the outcome, the subscription as left by the call, and the trace. -/
def unpauseSubscription (env : Env) (subscription : Subscription) :
    Except String Unit × Subscription × List Op :=
  match subscription.labels with
  | none => (.error ("failed to find labels for subscription " ++ subscription.name),
      subscription, [])
  | some labels =>
    let subscription2 :=
      { subscription with labels := some (mapSet labels LabelSubscriptionPause "false") }
    (env.subUpdateRes, subscription2, [Op.subUpdateOp subscription2])

/-! ### Placement selection -/

/-- `requiredClusterReplicas` (local constant). -/
def requiredClusterReplicas : Int := 1

/-- `maxClusterCount` (local constant of `extractHomeClusterAndPeerCluster`). -/
def maxClusterCount : Nat := 2

/-- `filterClusters` (the source marks it an unimplemented pass-through): an
empty cluster map is an error, anything else passes. -/
def filterClusters (placementRule : PlacementRule) (clmap : List ManagedCluster) :
    Except String Unit :=
  if clmap.length = 0 then
    .error ("no clusters found for placementRule " ++ placementRule.name)
  else .ok ()

/-- `getManagedClustersUsingPlacementRule`: resolve via the external resolver;
error if the rule declares a cluster-replica count other than 1, if the filter
rejects (empty map), or if the resolved count differs from `maxClusterCount`;
otherwise return the resolved map (as a list in iteration order). -/
def getManagedClustersUsingPlacementRule (env : Env) (placementRule : PlacementRule)
    (maxCount : Nat) : Except String (List ManagedCluster) :=
  match env.placeByGenericPlacmentFields placementRule with
  | .error e => .error ("failed to get cluster map for placement " ++ e)
  | .ok clmap =>
    if placementRule.clusterReplicas ≠ none ∧
        placementRule.clusterReplicas.getD requiredClusterReplicas ≠ requiredClusterReplicas then
      .error ("PlacementRule required cluster replicas mismatch")
    else
      match filterClusters placementRule clmap with
      | .error e => .error ("failed to filter clusters " ++ e)
      | .ok _ =>
        if clmap.length ≠ maxCount then
          .error ("PlacementRule should have made maxCount decisions")
        else .ok clmap

/-- Whether `subStatuses[name] != nil`: the per-cluster status map holds the
key with a non-nil value. -/
def nonNilStatus (m : List (String × Bool)) (k : String) : Bool :=
  match m.lookup k with
  | some b => b
  | none => false

/-- `extractHomeClusterAndPeerCluster`: nil `Status.Statuses` is an error;
resolve the two-cluster map; the home cluster is the resolved cluster whose
name has a non-nil status entry (first in iteration order checked first), the
peer is the other; neither matching is an error. The non-two-element branch is
unreachable because the resolver result was already checked to have exactly
`maxClusterCount` elements. -/
def extractHomeClusterAndPeerCluster (env : Env) (subscription : Subscription)
    (placementRule : PlacementRule) : Except String (String × String) :=
  match subscription.status.statuses with
  | none => .error "invalid subscription Status.Statuses"
  | some subStatuses =>
    match getManagedClustersUsingPlacementRule env placementRule maxClusterCount with
    | .error e => .error e
    | .ok clmap =>
      match clmap with
      | [d1, d2] =>
        if nonNilStatus subStatuses d1.name then .ok (d1.name, d2.name)
        else if nonNilStatus subStatuses d2.name then .ok (d2.name, d1.name)
        else .error "mismatch between placementRule decisions and subscription statuses"
      | _ => .error "unreachable: resolver returned two clusters"

/-- `selectPlacementDecision`: the subscription must be propagated with a
non-nil status map and carry a placement reference; the referenced placement
rule is fetched (defaulting its namespace to the subscription's) and the
home/peer pair extracted. -/
def selectPlacementDecision (env : Env) (subscription : Subscription) :
    Except String (String × String) :=
  if subscription.status.phase ≠ SubscriptionPropagated ∨
      subscription.status.statuses.isNone then
    .error ("subscription not ready " ++ subscription.name)
  else
    match subscription.placement with
    | none => .error ("placement not set for subscription " ++ subscription.name)
    | some pl =>
      match pl.placementRef with
      | none => .error ("placement not set for subscription " ++ subscription.name)
      | some plRef =>
        let ns := if plRef.refNamespace = "" then subscription.subNamespace
          else plRef.refNamespace
        match env.getPlacementRule plRef.name ns with
        | .error _ => .error "failed to retrieve placementRule"
        | .ok placementRule =>
          extractHomeClusterAndPeerCluster env subscription placementRule

/-! ### Per-subscription processing -/

/-- `processUnpausedSubscription`: select the placement decision, converge the
role work then the VRG work onto the home cluster, and return the decision. -/
def processUnpausedSubscription (env : Env) (avr : AVR)
    (subscription : Subscription) :
    Except String SubscriptionPlacementDecision × List Op :=
  match selectPlacementDecision env subscription with
  | .error e => (.error e, [])
  | .ok (homeCluster, peerCluster) =>
    match createOrUpdateVRGRolesManifestWork env homeCluster with
    | (.error e, ops) => (.error e, ops)
    | (.ok _, ops) =>
      match createOrUpdateVRGManifestWork env subscription.name
          subscription.subNamespace homeCluster avr.spec.s3Endpoint
          avr.spec.s3SecretName with
      | (.error e, ops2) => (.error e, ops ++ ops2)
      | (.ok _, ops2) =>
        (.ok { homeCluster := homeCluster, peerCluster := peerCluster }, ops ++ ops2)

/-- `processSubscription`: the paused branch runs the failover sequence and
always ends in requeue with no decision; the unpaused branch skips when the
VRG work already exists, otherwise produces a decision (or requeues on
error). The first component is `(placement decision, needRequeue)`. -/
def processSubscription (env : Env) (avr : AVR) (subscription : Subscription) :
    (Option SubscriptionPlacementDecision × Bool) × List Op :=
  if isSubsriptionPausedForDR subscription.labels then
    match processPausedSubscription env avr subscription with
    | (.error _, ops) => ((none, true), ops)
    | (.ok (newHomeCluster, pvMW), ops) =>
      if waitForManifest env subscription newHomeCluster pvMW then ((none, true), ops)
      else
        match unpauseSubscription env subscription with
        | (.error _, _, ops2) => ((none, true), ops ++ ops2)
        | (.ok _, _, ops2) => ((none, true), ops ++ ops2)
  else
    match vrgManifestWorkAlreadyExists env avr subscription with
    | .error _ => ((none, true), [])
    | .ok true => ((none, false), [])
    | .ok false =>
      match processUnpausedSubscription env avr subscription with
      | (.error _, ops) => ((none, true), ops)
      | (.ok d, ops) => ((some d, false), ops)

/-- The skip test of the `processSubscriptions` loop: a propagated-child
(subscribed phase) or explicitly local subscription is ignored. -/
def isSkippedSubscription (subscription : Subscription) : Bool :=
  subscription.status.phase == SubscriptionSubscribed ||
  (match subscription.placement with
   | some pl =>
     match pl.localPlacement with
     | some b => b
     | none => false
   | none => false)

/-- The `for` loop of `processSubscriptions`, threading the accumulated
decision map and requeue flag. -/
def processSubscriptionsLoop (env : Env) (avr : AVR)
    (placementDecisions : List (String × SubscriptionPlacementDecision))
    (requeue : Bool) :
    List Subscription → List (String × SubscriptionPlacementDecision) × Bool
  | [] => (placementDecisions, requeue)
  | subscription :: rest =>
    if isSkippedSubscription subscription then
      processSubscriptionsLoop env avr placementDecisions requeue rest
    else
      match (processSubscription env avr subscription).1 with
      | (placementDecision, needRequeue) =>
        if needRequeue then processSubscriptionsLoop env avr placementDecisions true rest
        else
          match placementDecision with
          | some d =>
            processSubscriptionsLoop env avr
              (mapSet placementDecisions subscription.name d) requeue rest
          | none => processSubscriptionsLoop env avr placementDecisions requeue rest

/-- `processSubscriptions`: run the loop from an empty decision map and a
clear requeue flag. -/
def processSubscriptions (env : Env) (avr : AVR) (subs : List Subscription) :
    List (String × SubscriptionPlacementDecision) × Bool :=
  processSubscriptionsLoop env avr [] false subs

/-! ### Status update and the reconcile tail -/

/-- `updateAVRStatus`: replace the whole status with one holding exactly the
new decision map, then issue the status update; the persisted object changes
only if the update succeeds. -/
def updateAVRStatus (env : Env) (avr : AVR)
    (placementDecisions : List (String × SubscriptionPlacementDecision)) :
    Except String AVR :=
  match env.statusUpdateRes with
  | .error e => .error e
  | .ok _ => .ok { avr with status := { decisions := placementDecisions } }

/-- The tail of `Reconcile` after `processSubscriptions`: an empty decision
map returns the aggregated requeue flag with no status write; otherwise one
status update is issued, a failure forcing requeue. Returns the persisted
AVR, the number of status-update calls issued, and the requeue flag. -/
def reconcilePass (env : Env) (avr : AVR)
    (placementDecisions : List (String × SubscriptionPlacementDecision))
    (requeue : Bool) : AVR × Nat × Bool :=
  if placementDecisions.length = 0 then (avr, 0, requeue)
  else
    match updateAVRStatus env avr placementDecisions with
    | .error _ => (avr, 1, true)
    | .ok avr2 => (avr2, 1, requeue)

/-- `Reconcile` from the subscription-processing step on: process all
subscriptions, then run the status-update tail. -/
def Reconcile (env : Env) (avr : AVR) (subs : List Subscription) :
    AVR × Nat × Bool :=
  let pr := processSubscriptions env avr subs
  reconcilePass env avr pr.1 pr.2

/-! ## Lemmas about the condition evaluator -/

lemma perm_sortConditionsDesc (l : List Condition) : (sortConditionsDesc l).Perm l :=
  List.perm_insertionSort condGE l

lemma sorted_sortConditionsDesc (l : List Condition) :
    List.Sorted condGE (sortConditionsDesc l) :=
  List.sorted_insertionSort condGE l

lemma maxTimestamp_le_of_forall_le {l : List Condition} {b : Nat}
    (h : ∀ c ∈ l, c.lastTransitionTime ≤ b) : maxTimestamp l ≤ b := by
  induction l with
  | nil => exact Nat.zero_le b
  | cons c cs ih =>
    simp only [maxTimestamp, Nat.max_le]
    exact ⟨h c (List.mem_cons_self c cs), ih fun d hd => h d (List.mem_cons_of_mem c hd)⟩

lemma le_maxTimestamp_of_mem {l : List Condition} {c : Condition} (h : c ∈ l) :
    c.lastTransitionTime ≤ maxTimestamp l := by
  induction l with
  | nil => cases h
  | cons d ds ih =>
    rcases List.mem_cons.mp h with h | h
    · subst h; exact Nat.le_max_left _ _
    · exact Nat.le_trans (ih h) (Nat.le_max_right _ _)

lemma maxTimestamp_perm {l₁ l₂ : List Condition} (h : l₁.Perm l₂) :
    maxTimestamp l₁ = maxTimestamp l₂ := by
  induction h with
  | nil => rfl
  | cons x _ ih => simp [maxTimestamp, ih]
  | swap x y l =>
    simp only [maxTimestamp, ← Nat.max_assoc]
    rw [Nat.max_comm y.lastTransitionTime x.lastTransitionTime]
  | trans _ _ ih1 ih2 => exact ih1.trans ih2

lemma takeWhile_eq_filter_ts (t : Nat) :
    ∀ s : List Condition, List.Sorted condGE s →
      (∀ c ∈ s, c.lastTransitionTime ≤ t) →
      s.takeWhile (fun c => c.lastTransitionTime == t) =
        s.filter (fun c => c.lastTransitionTime == t) := by
  intro s
  induction s with
  | nil => intro _ _; rfl
  | cons c cs ih =>
    intro hs hb
    rcases List.sorted_cons.mp hs with ⟨hhead, htail⟩
    by_cases hc : c.lastTransitionTime = t
    · simp only [List.takeWhile_cons, List.filter_cons, hc, beq_self_eq_true, if_true]
      rw [ih htail fun d hd => hb d (List.mem_cons_of_mem c hd)]
    · have hlt : c.lastTransitionTime < t :=
        Nat.lt_of_le_of_ne (hb c (List.mem_cons_self c cs)) hc
      have hcne : (c.lastTransitionTime == t) = false := beq_eq_false_iff_ne.mpr hc
      simp only [List.takeWhile_cons, List.filter_cons, hcne, if_false,
        Bool.false_eq_true, cond_false]
      symm
      rw [List.filter_eq_nil_iff]
      intro d hd
      have : d.lastTransitionTime ≤ c.lastTransitionTime := hhead d hd
      simp only [beq_iff_eq]
      exact Nat.ne_of_lt (Nat.lt_of_le_of_lt this hlt)

lemma getMostRecentConditions_perm_filter {l : List Condition} (hne : l ≠ []) :
    (getMostRecentConditions l).Perm
      (l.filter (fun c => c.lastTransitionTime == maxTimestamp l)) := by
  have hperm := perm_sortConditionsDesc l
  have hsort := sorted_sortConditionsDesc l
  rcases h : sortConditionsDesc l with _ | ⟨m, rest⟩
  · exact absurd (h ▸ hperm).symm.eq_nil hne
  · have hmem : ∀ c ∈ sortConditionsDesc l, c.lastTransitionTime ≤ m.lastTransitionTime := by
      intro c hc
      rw [h] at hc
      rcases List.mem_cons.mp hc with hc | hc
      · subst hc; exact Nat.le_refl _
      · rw [h] at hsort
        exact (List.sorted_cons.mp hsort).1 c hc
    have hmax : m.lastTransitionTime = maxTimestamp l := by
      have h1 : m.lastTransitionTime ≤ maxTimestamp l :=
        le_maxTimestamp_of_mem (hperm.mem_iff.mp (h ▸ List.mem_cons_self m rest))
      have h2 : maxTimestamp l ≤ m.lastTransitionTime := by
        rw [← maxTimestamp_perm hperm]
        exact maxTimestamp_le_of_forall_le hmem
      exact Nat.le_antisymm h1 h2
    have heq : getMostRecentConditions l =
        (sortConditionsDesc l).filter (fun c => c.lastTransitionTime == maxTimestamp l) := by
      rw [getMostRecentConditions, h, ← hmax]
      have := takeWhile_eq_filter_ts m.lastTransitionTime (sortConditionsDesc l)
        hsort hmem
      rw [h] at this
      exact this
    rw [heq]
    exact hperm.filter _

lemma foldl_appliedDegradedStep (r : List Condition) (p : Bool × Bool) :
    r.foldl appliedDegradedStep p =
      (p.1 || r.any (fun c => c.condType == WorkApplied),
       p.2 || r.any (fun c => c.condType == WorkDegraded)) := by
  induction r generalizing p with
  | nil => simp
  | cons c cs ih =>
    rw [List.foldl_cons, ih]
    by_cases hA : c.condType = WorkApplied
    · have hD : (c.condType == WorkDegraded) = false := by
        rw [hA]; decide
      have hA2 : (c.condType == WorkApplied) = true := beq_iff_eq.mpr hA
      simp [appliedDegradedStep, hA2, hD, List.any_cons, Bool.or_assoc]
    · have hA2 : (c.condType == WorkApplied) = false := beq_eq_false_iff_ne.mpr hA
      by_cases hD : c.condType = WorkDegraded
      · have hD2 : (c.condType == WorkDegraded) = true := beq_iff_eq.mpr hD
        simp [appliedDegradedStep, hA2, hD2, List.any_cons, Bool.or_assoc]
      · have hD2 : (c.condType == WorkDegraded) = false := beq_eq_false_iff_ne.mpr hD
        simp [appliedDegradedStep, hA2, hD2, List.any_cons]

/-- The condition the claim singles out: a condition of the given type with
status true carrying the maximum timestamp of the whole list. -/
def HasTrueAtMax (l : List Condition) (ty : String) : Prop :=
  ∃ c ∈ l, c.lastTransitionTime = maxTimestamp l ∧ c.condType = ty ∧
    c.status = ConditionTrue

instance (l : List Condition) (ty : String) : Decidable (HasTrueAtMax l ty) :=
  inferInstanceAs (Decidable (∃ c ∈ l, _ ∧ _ ∧ _))

lemma any_ty_of_recent {l : List Condition} (hne : l ≠ []) (ty : String) :
    ((filterByConditionStatus (getMostRecentConditions l) ConditionTrue).any
      (fun c => c.condType == ty)) = true ↔ HasTrueAtMax l ty := by
  rw [filterByConditionStatus, List.any_filter]
  have hperm := getMostRecentConditions_perm_filter hne
  constructor
  · intro h
    rcases List.any_eq_true.mp h with ⟨c, hc, hcb⟩
    have hcl := List.mem_filter.mp (hperm.mem_iff.mp hc)
    rcases Bool.and_eq_true_iff.mp hcb with ⟨hst, hty⟩
    exact ⟨c, hcl.1, beq_iff_eq.mp hcl.2, beq_iff_eq.mp hty, beq_iff_eq.mp hst⟩
  · rintro ⟨c, hcl, hts, hty, hst⟩
    refine List.any_eq_true.mpr ⟨c, hperm.mem_iff.mpr ?_, ?_⟩
    · exact List.mem_filter.mpr ⟨hcl, beq_iff_eq.mpr hts⟩
    · rw [hst, hty]
      simp

lemma applied_state_empty (mw : ManifestWork) (h : mw.conditions = []) :
    IsManifestInAppliedState mw = (false, mw) := by
  rw [IsManifestInAppliedState, h]
  rfl

lemma applied_state_snd {mw : ManifestWork} (h : mw.conditions ≠ []) :
    (IsManifestInAppliedState mw).2 =
      { mw with conditions := sortConditionsDesc mw.conditions } := by
  rw [IsManifestInAppliedState]
  have : mw.conditions.length > 0 := List.length_pos.mpr h
  simp [this]

lemma applied_state_fst {mw : ManifestWork} (hne : mw.conditions ≠ []) :
    (IsManifestInAppliedState mw).1 =
      ((filterByConditionStatus (getMostRecentConditions mw.conditions)
          ConditionTrue).any (fun c => c.condType == WorkApplied) &&
       !((filterByConditionStatus (getMostRecentConditions mw.conditions)
          ConditionTrue).any (fun c => c.condType == WorkDegraded))) := by
  have hlen : mw.conditions.length > 0 := List.length_pos.mpr hne
  rw [IsManifestInAppliedState]
  simp only [hlen, if_true, foldl_appliedDegradedStep, Bool.false_or]
  cases hD : (filterByConditionStatus (getMostRecentConditions mw.conditions)
      ConditionTrue).any (fun c => c.condType == WorkDegraded) with
  | false => simp
  | true => simp

lemma applied_state_iff (mw : ManifestWork) (hne : mw.conditions ≠ []) :
    (IsManifestInAppliedState mw).1 = true ↔
      (HasTrueAtMax mw.conditions WorkApplied ∧
       ¬HasTrueAtMax mw.conditions WorkDegraded) := by
  rw [applied_state_fst hne, Bool.and_eq_true, Bool.not_eq_true',
    ← Bool.not_eq_true]
  rw [any_ty_of_recent hne WorkApplied, any_ty_of_recent hne WorkDegraded]

lemma hasTrueAtMax_perm {l₁ l₂ : List Condition} (h : l₁.Perm l₂) (ty : String) :
    HasTrueAtMax l₁ ty ↔ HasTrueAtMax l₂ ty := by
  unfold HasTrueAtMax
  rw [maxTimestamp_perm h]
  exact ⟨fun ⟨c, hc, hp⟩ => ⟨c, h.mem_iff.mp hc, hp⟩,
    fun ⟨c, hc, hp⟩ => ⟨c, h.mem_iff.mpr hc, hp⟩⟩

lemma applied_state_perm (mw : ManifestWork) (l₂ : List Condition)
    (hp : mw.conditions.Perm l₂) :
    (IsManifestInAppliedState { mw with conditions := l₂ }).1 =
      (IsManifestInAppliedState mw).1 := by
  by_cases h : mw.conditions = []
  · have h2 : l₂ = [] := (h ▸ hp).symm.eq_nil
    rw [applied_state_empty mw h,
      applied_state_empty { mw with conditions := l₂ } h2]
  · have hne2 : l₂ ≠ [] := fun hc => h (hc ▸ hp).eq_nil
    rw [Bool.eq_iff_iff,
      applied_state_iff { mw with conditions := l₂ } hne2,
      applied_state_iff mw h]
    have hp2 : l₂.Perm mw.conditions := hp.symm
    exact and_congr (hasTrueAtMax_perm hp2 WorkApplied)
      (not_congr (hasTrueAtMax_perm hp2 WorkDegraded))

/-! ## Claim C1 -/

/-- The spec's tie-break example: Applied-true and Degraded-true sharing the
maximum timestamp 5. -/
def mwTie : ManifestWork :=
  { name := "sub-ns-pv-mw", mwNamespace := "east", labels := [],
    spec := { manifests := [] },
    conditions := [⟨WorkApplied, ConditionTrue, 5⟩, ⟨WorkDegraded, ConditionTrue, 5⟩] }

/-- C1: the applied-state evaluator returns false on an empty condition list;
on a non-empty list it returns true exactly when the subset of conditions
carrying the maximum timestamp contains an Applied condition with status true
and contains no Degraded condition with status true (a same-timestamp
Degraded-true forces false, older Degraded-true conditions are ignored); and
the returned boolean is invariant under any permutation of the input, hence
insensitive to input order and duplicate timestamps. -/
theorem appliedState_empty_false_and_max_timestamp_rule (mw : ManifestWork) :
    (mw.conditions = [] → (IsManifestInAppliedState mw).1 = false)
    ∧ (mw.conditions ≠ [] →
        ((IsManifestInAppliedState mw).1 = true ↔
          (HasTrueAtMax mw.conditions WorkApplied ∧
           ¬HasTrueAtMax mw.conditions WorkDegraded)))
    ∧ (∀ l₂, mw.conditions.Perm l₂ →
        (IsManifestInAppliedState { mw with conditions := l₂ }).1 =
          (IsManifestInAppliedState mw).1) := by
  refine ⟨fun h => ?_, fun h => applied_state_iff mw h,
    fun l₂ hp => applied_state_perm mw l₂ hp⟩
  rw [applied_state_empty mw h]

/-- Witness for C1 at the spec's tie-break example: the evaluator returns
false there, and the characterization instance holds. -/
theorem appliedState_empty_false_and_max_timestamp_rule_witness :
    (IsManifestInAppliedState mwTie).1 = false ∧
    ((IsManifestInAppliedState mwTie).1 = true ↔
      (HasTrueAtMax mwTie.conditions WorkApplied ∧
       ¬HasTrueAtMax mwTie.conditions WorkDegraded)) :=
  ⟨by decide,
   (appliedState_empty_false_and_max_timestamp_rule mwTie).2.1 (by decide)⟩

/-! ## Claim C9 -/

/-- Unsorted conditions with distinct timestamps, exhibiting the in-place
reordering performed by the evaluator's sort. -/
def mwUnsorted : ManifestWork :=
  { name := "sub-ns-pv-mw", mwNamespace := "east", labels := [],
    spec := { manifests := [] },
    conditions := [⟨WorkApplied, ConditionTrue, 1⟩, ⟨WorkApplied, ConditionTrue, 2⟩] }

/-- C9 counterexample: evaluating the applied-state predicate does not leave
the input condition list unchanged — `sort.Slice` reorders the caller's slice
in place (here the two conditions swap places). -/
theorem appliedState_reorders_input_conditions :
    (IsManifestInAppliedState mwUnsorted).2.conditions ≠ mwUnsorted.conditions := by
  decide

/-- C9 amended: the evaluator mutates only the order of the condition list
(the post-call list is a permutation of the input and all other fields of the
work are untouched), and it is deterministic: re-evaluating the mutated work
returns the same boolean. -/
theorem appliedState_deterministic_and_multiset_preserving (mw : ManifestWork) :
    ((IsManifestInAppliedState mw).2.conditions).Perm mw.conditions
    ∧ (IsManifestInAppliedState (IsManifestInAppliedState mw).2).1 =
        (IsManifestInAppliedState mw).1
    ∧ (IsManifestInAppliedState mw).2.name = mw.name
    ∧ (IsManifestInAppliedState mw).2.mwNamespace = mw.mwNamespace
    ∧ (IsManifestInAppliedState mw).2.labels = mw.labels
    ∧ (IsManifestInAppliedState mw).2.spec = mw.spec := by
  by_cases h : mw.conditions = []
  · simp [applied_state_empty mw h]
  · rw [applied_state_snd h]
    exact ⟨perm_sortConditionsDesc mw.conditions,
      applied_state_perm mw _ (perm_sortConditionsDesc mw.conditions).symm,
      rfl, rfl, rfl, rfl⟩

/-! ## Write-trace helpers -/

/-- Whether an operation is a `ManifestWork` create call. -/
def isCreateOp : Op → Bool
  | .createOp _ _ => true
  | _ => false

/-- Whether an operation is a `ManifestWork` update call. -/
def isUpdateOp : Op → Bool
  | .updateOp _ _ => true
  | _ => false

/-- Number of create calls in a trace. -/
def countCreates (ops : List Op) : Nat := (ops.filter isCreateOp).length

/-- Number of update calls in a trace. -/
def countUpdates (ops : List Op) : Nat := (ops.filter isUpdateOp).length

/-! ## Shared sample objects for witnesses -/

/-- An environment where every read finds nothing and every write succeeds. -/
def envAbsent : Env :=
  { getMW := fun _ _ => .ok none,
    getPlacementRule := fun _ _ => .error "no placement rule",
    placeByGenericPlacmentFields := fun _ => .error "no resolver",
    downloadPVs := fun _ _ _ _ => .ok [],
    createRes := .ok (), updateRes := .ok (), deleteRes := .ok (),
    subUpdateRes := .ok (), statusUpdateRes := .ok () }

/-- A sample desired work bundle. -/
def mwSample : ManifestWork :=
  { name := "app1-ns-vrg-mw", mwNamespace := "east", labels := [("app", "VRG")],
    spec := { manifests := ["m1"] }, conditions := [] }

/-- An environment whose store holds exactly `mwSample` (as the previous
environment left it after the create). -/
def envPresent : Env :=
  { envAbsent with
    getMW := fun n ns => if n = mwSample.name ∧ ns = "east" then .ok (some mwSample)
      else .ok none }

/-- A sample DR intent with no recorded decisions. -/
def avrSample : AVR :=
  { name := "avr1"
    avrNamespace := "ns"
    spec :=
      { failoverClusters := [("app1", "west")]
        s3Endpoint := "ep"
        s3SecretName := "sec" }
    status := { decisions := [] } }

/-! ## Claim C3 -/

/-- C3: the convergence step issues exactly one create when the bundle is
absent, nothing when the existing spec deep-equals the desired one, and
exactly one update carrying the replaced spec when they differ; consequently
two applies of the same desired content, with the second seeing exactly the
bundle the first created, issue one create and zero updates in total. -/
theorem createOrUpdate_idempotent_convergence (env env2 : Env)
    (mw : ManifestWork) (cluster : String) :
    (env.getMW mw.name cluster = .ok none →
      (createOrUpdateManifestWork env mw cluster).2 = [Op.createOp mw cluster])
    ∧ (∀ found, env.getMW mw.name cluster = .ok (some found) →
        found.spec = mw.spec → (createOrUpdateManifestWork env mw cluster).2 = [])
    ∧ (∀ found, env.getMW mw.name cluster = .ok (some found) →
        found.spec ≠ mw.spec →
        (createOrUpdateManifestWork env mw cluster).2 =
          [Op.updateOp { found with spec := mw.spec } cluster])
    ∧ (env.getMW mw.name cluster = .ok none →
        env2.getMW mw.name cluster = .ok (some mw) →
        countCreates ((createOrUpdateManifestWork env mw cluster).2 ++
          (createOrUpdateManifestWork env2 mw cluster).2) = 1 ∧
        countUpdates ((createOrUpdateManifestWork env mw cluster).2 ++
          (createOrUpdateManifestWork env2 mw cluster).2) = 0) := by
  refine ⟨fun h => ?_, fun found h heq => ?_, fun found h hne => ?_,
    fun h1 h2 => ?_⟩
  · simp [createOrUpdateManifestWork, h]
  · simp [createOrUpdateManifestWork, h, heq]
  · simp [createOrUpdateManifestWork, h, hne]
  · simp [createOrUpdateManifestWork, h1, h2, countCreates, countUpdates,
      isCreateOp, isUpdateOp]

/-- Witness for C3: creating against an empty store and re-applying against
the store holding the created bundle issues one create and zero updates. -/
theorem createOrUpdate_idempotent_convergence_witness :
    countCreates ((createOrUpdateManifestWork envAbsent mwSample "east").2 ++
      (createOrUpdateManifestWork envPresent mwSample "east").2) = 1 ∧
    countUpdates ((createOrUpdateManifestWork envAbsent mwSample "east").2 ++
      (createOrUpdateManifestWork envPresent mwSample "east").2) = 0 :=
  (createOrUpdate_idempotent_convergence envAbsent envPresent mwSample
    "east").2.2.2 rfl rfl

/-! ## Claim C4 -/

/-- C4: a pass whose aggregated decision map is empty performs no status
write, leaves the intent unchanged and returns the aggregated requeue flag;
a pass with a non-empty map issues exactly one status write which, when it
succeeds, replaces the whole decision map wholesale with the new one. -/
theorem reconcile_status_write_policy (env : Env) (avr : AVR)
    (pd : List (String × SubscriptionPlacementDecision)) (requeue : Bool) :
    (pd = [] → reconcilePass env avr pd requeue = (avr, 0, requeue))
    ∧ (pd ≠ [] →
        ((reconcilePass env avr pd requeue).2.1 = 1 ∧
         (env.statusUpdateRes = .ok () →
           reconcilePass env avr pd requeue =
             ({ avr with status := { decisions := pd } }, 1, requeue)))) := by
  constructor
  · intro h
    simp [reconcilePass, h]
  · intro h
    have hlen : pd.length ≠ 0 := fun hc => h (List.length_eq_zero.mp hc)
    constructor
    · rw [reconcilePass, if_neg hlen, updateAVRStatus]
      rcases env.statusUpdateRes with e | u
      · rfl
      · rfl
    · intro hok
      rw [reconcilePass, if_neg hlen, updateAVRStatus, hok]

/-- Witness for C4: a singleton decision map against a successful store
replaces the status decisions and issues one write. -/
theorem reconcile_status_write_policy_witness :
    (reconcilePass envAbsent avrSample
        [("app1", { homeCluster := "east", peerCluster := "west" })] true).2.1 = 1 ∧
    reconcilePass envAbsent avrSample
        [("app1", { homeCluster := "east", peerCluster := "west" })] true =
      ({ avrSample with status :=
          { decisions := [("app1", { homeCluster := "east", peerCluster := "west" })] } },
        1, true) := by
  have h := (reconcile_status_write_policy envAbsent avrSample
    [("app1", { homeCluster := "east", peerCluster := "west" })] true).2
    (by intro hc; cases hc)
  exact ⟨h.1, h.2 rfl⟩

/-! ## Claim C6 -/

/-- C6: cluster selection errors when the rule declares a replica count other
than one, when the resolved set is empty, or when its cardinality is not
exactly two; with exactly two resolved clusters and replica count one or
undeclared it returns the resolved pair. -/
theorem placement_pair_cardinality_enforced (env : Env) (pr : PlacementRule)
    (clmap : List ManagedCluster)
    (hres : env.placeByGenericPlacmentFields pr = .ok clmap) :
    ((∃ n, pr.clusterReplicas = some n ∧ n ≠ 1) →
      ∃ e, getManagedClustersUsingPlacementRule env pr maxClusterCount = .error e)
    ∧ (clmap.length = 0 →
      ∃ e, getManagedClustersUsingPlacementRule env pr maxClusterCount = .error e)
    ∧ (clmap.length ≠ 2 →
      ∃ e, getManagedClustersUsingPlacementRule env pr maxClusterCount = .error e)
    ∧ (clmap.length = 2 →
      (pr.clusterReplicas = none ∨ pr.clusterReplicas = some 1) →
      getManagedClustersUsingPlacementRule env pr maxClusterCount = .ok clmap) := by
  refine ⟨?_, ?_, ?_, ?_⟩
  · rintro ⟨n, hn, hne1⟩
    have hc : pr.clusterReplicas ≠ none ∧
        pr.clusterReplicas.getD requiredClusterReplicas ≠ requiredClusterReplicas := by
      rw [hn]
      exact ⟨Option.some_ne_none n, hne1⟩
    refine ⟨"PlacementRule required cluster replicas mismatch", ?_⟩
    simp only [getManagedClustersUsingPlacementRule, hres]
    rw [if_pos hc]
  · intro hlen
    by_cases hc : pr.clusterReplicas ≠ none ∧
        pr.clusterReplicas.getD requiredClusterReplicas ≠ requiredClusterReplicas
    · refine ⟨"PlacementRule required cluster replicas mismatch", ?_⟩
      simp only [getManagedClustersUsingPlacementRule, hres]
      rw [if_pos hc]
    · have hfc : filterClusters pr clmap =
          .error ("no clusters found for placementRule " ++ pr.name) := by
        simp only [filterClusters]
        rw [if_pos hlen]
      refine ⟨"failed to filter clusters " ++
        ("no clusters found for placementRule " ++ pr.name), ?_⟩
      simp only [getManagedClustersUsingPlacementRule, hres]
      rw [if_neg hc, hfc]
  · intro hlen
    by_cases hc : pr.clusterReplicas ≠ none ∧
        pr.clusterReplicas.getD requiredClusterReplicas ≠ requiredClusterReplicas
    · refine ⟨"PlacementRule required cluster replicas mismatch", ?_⟩
      simp only [getManagedClustersUsingPlacementRule, hres]
      rw [if_pos hc]
    · by_cases h0 : clmap.length = 0
      · have hfc : filterClusters pr clmap =
            .error ("no clusters found for placementRule " ++ pr.name) := by
          simp only [filterClusters]
          rw [if_pos h0]
        refine ⟨"failed to filter clusters " ++
          ("no clusters found for placementRule " ++ pr.name), ?_⟩
        simp only [getManagedClustersUsingPlacementRule, hres]
        rw [if_neg hc, hfc]
      · have hfc : filterClusters pr clmap = .ok () := by
          simp only [filterClusters]
          rw [if_neg h0]
        have hlen2 : clmap.length ≠ maxClusterCount := hlen
        refine ⟨"PlacementRule should have made maxCount decisions", ?_⟩
        simp only [getManagedClustersUsingPlacementRule, hres]
        rw [if_neg hc, hfc]
        show (if clmap.length ≠ maxClusterCount then _ else _) = _
        rw [if_pos hlen2]
  · intro hlen hrep
    have hc : ¬(pr.clusterReplicas ≠ none ∧
        pr.clusterReplicas.getD requiredClusterReplicas ≠ requiredClusterReplicas) := by
      rcases hrep with h | h
      · exact fun hcontra => hcontra.1 h
      · rw [h]
        rintro ⟨_, hbad⟩
        exact hbad rfl
    have h0 : clmap.length ≠ 0 := by
      rw [hlen]
      exact two_ne_zero
    have hfc : filterClusters pr clmap = .ok () := by
      simp only [filterClusters]
      rw [if_neg h0]
    have h2 : ¬clmap.length ≠ maxClusterCount := fun h => h hlen
    simp only [getManagedClustersUsingPlacementRule, hres]
    rw [if_neg hc, hfc]
    show (if clmap.length ≠ maxClusterCount then _ else _) = _
    rw [if_neg h2]

/-- A placement rule with no declared replica count. -/
def prPair : PlacementRule :=
  { name := "pr"
    prNamespace := "ns"
    clusterReplicas := none }

/-- An environment whose resolver yields the fixed east/west pair. -/
def envPair : Env :=
  { envAbsent with
    placeByGenericPlacmentFields := fun _ => .ok [⟨"east"⟩, ⟨"west"⟩],
    getPlacementRule := fun _ _ => .ok prPair }

/-- Witness for C6: the east/west pair with undeclared replica count is
accepted and returned. -/
theorem placement_pair_cardinality_enforced_witness :
    getManagedClustersUsingPlacementRule envPair prPair maxClusterCount =
      .ok [⟨"east"⟩, ⟨"west"⟩] :=
  (placement_pair_cardinality_enforced envPair prPair [⟨"east"⟩, ⟨"west"⟩]
    rfl).2.2.2 rfl (Or.inl rfl)

/-! ## Claim C2 -/

/-- A subscription whose per-cluster status map has non-nil entries for both
resolved clusters. -/
def subBoth : Subscription :=
  { name := "app1"
    subNamespace := "ns"
    labels := none
    placement := some
      { localPlacement := none
        placementRef := some { name := "pr", refNamespace := "ns" } }
    status :=
      { phase := SubscriptionPropagated
        statuses := some [("east", true), ("west", true)] } }

/-- C2 counterexample: with status entries for both resolved clusters the
extraction does not error — it succeeds, taking the first cluster in the
resolver's iteration order as home. The claim as stated says this case is an
error. -/
theorem extract_succeeds_when_both_have_status :
    nonNilStatus [("east", true), ("west", true)] "east" = true ∧
    nonNilStatus [("east", true), ("west", true)] "west" = true ∧
    extractHomeClusterAndPeerCluster envPair subBoth prPair =
      .ok ("east", "west") := by
  refine ⟨rfl, rfl, ?_⟩
  rfl

/-- C2 amended: with a resolved two-cluster pair, extraction returns as home
the first cluster in iteration order when it has a non-nil status entry (the
other cluster's entry is then irrelevant — both present is not an error),
returns the second cluster as home when only it has an entry, and errors when
neither has an entry. -/
theorem extract_home_peer_assignment (env : Env) (sub : Subscription)
    (pr : PlacementRule) (m : List (String × Bool)) (d1 d2 : ManagedCluster)
    (hst : sub.status.statuses = some m)
    (hcl : getManagedClustersUsingPlacementRule env pr maxClusterCount =
      .ok [d1, d2]) :
    (nonNilStatus m d1.name = true →
      extractHomeClusterAndPeerCluster env sub pr = .ok (d1.name, d2.name))
    ∧ (nonNilStatus m d1.name = false → nonNilStatus m d2.name = true →
      extractHomeClusterAndPeerCluster env sub pr = .ok (d2.name, d1.name))
    ∧ (nonNilStatus m d1.name = false → nonNilStatus m d2.name = false →
      ∃ e, extractHomeClusterAndPeerCluster env sub pr = .error e) := by
  refine ⟨fun h1 => ?_, fun h1 h2 => ?_, fun h1 h2 => ?_⟩
  · rw [extractHomeClusterAndPeerCluster, hst, hcl]
    simp [h1]
  · rw [extractHomeClusterAndPeerCluster, hst, hcl]
    simp [h1, h2]
  · rw [extractHomeClusterAndPeerCluster, hst, hcl]
    simp [h1, h2]

/-- A subscription with a non-nil status entry only for the west cluster. -/
def subWestOnly : Subscription :=
  { subBoth with status :=
      { phase := SubscriptionPropagated
        statuses := some [("west", true)] } }

/-- Witness for C2 amended: with only west holding a status entry, home is
west and peer is east. -/
theorem extract_home_peer_assignment_witness :
    extractHomeClusterAndPeerCluster envPair subWestOnly prPair =
      .ok ("west", "east") :=
  (extract_home_peer_assignment envPair subWestOnly prPair [("west", true)]
    ⟨"east"⟩ ⟨"west"⟩ rfl rfl).2.1 rfl rfl

/-! ## Lemmas about map assignment and the subscription loop -/

lemma mapSet_self_mem {α : Type} (m : List (String × α)) (k : String) (v : α) :
    (k, v) ∈ mapSet m k v := by
  induction m with
  | nil => exact List.mem_singleton.mpr rfl
  | cons p rest ih =>
    obtain ⟨k0, v0⟩ := p
    rw [mapSet]
    by_cases h : k0 = k
    · rw [if_pos h]
      exact List.mem_cons_self _ _
    · rw [if_neg h]
      exact List.mem_cons_of_mem _ ih

lemma mapSet_mem_of_ne {α : Type} {m : List (String × α)} {k2 : String} {d : α}
    (k : String) (v : α) (h : (k2, d) ∈ m) (hne : k2 ≠ k) :
    (k2, d) ∈ mapSet m k v := by
  induction m with
  | nil => cases h
  | cons p rest ih =>
    obtain ⟨k0, v0⟩ := p
    rw [mapSet]
    by_cases hk : k0 = k
    · rw [if_pos hk]
      rcases List.mem_cons.mp h with heq | hmem
      · cases heq
        exact absurd hk hne
      · exact List.mem_cons_of_mem _ hmem
    · rw [if_neg hk]
      rcases List.mem_cons.mp h with heq | hmem
      · rw [heq]
        exact List.mem_cons_self _ _
      · exact List.mem_cons_of_mem _ (ih hmem)

lemma processSubscriptionsLoop_requeue (env : Env) (avr : AVR)
    (subs : List Subscription) :
    ∀ acc rq, (processSubscriptionsLoop env avr acc rq subs).2 =
      (rq || subs.any (fun s => !isSkippedSubscription s &&
        (processSubscription env avr s).1.2)) := by
  induction subs with
  | nil => intro acc rq; simp [processSubscriptionsLoop]
  | cons s rest ih =>
    intro acc rq
    rw [processSubscriptionsLoop]
    by_cases hs : isSkippedSubscription s = true
    · rw [if_pos hs, ih]
      simp [hs]
    · have hs2 : isSkippedSubscription s = false := Bool.of_not_eq_true hs
      rw [if_neg hs]
      rcases hps : (processSubscription env avr s).1 with ⟨pd, nr⟩
      cases nr with
      | true => simp [hps, ih, hs2]
      | false =>
        cases pd with
        | some d => simp [hps, ih, hs2]
        | none => simp [hps, ih, hs2]

lemma processSubscriptionsLoop_preserves (env : Env) (avr : AVR)
    (subs : List Subscription) (k : String) (d : SubscriptionPlacementDecision) :
    ∀ acc rq, (k, d) ∈ acc → (∀ s ∈ subs, s.name ≠ k) →
      (k, d) ∈ (processSubscriptionsLoop env avr acc rq subs).1 := by
  induction subs with
  | nil => intro acc rq hmem _; exact hmem
  | cons s rest ih =>
    intro acc rq hmem hk
    have hkrest : ∀ t ∈ rest, t.name ≠ k :=
      fun t ht => hk t (List.mem_cons_of_mem s ht)
    rw [processSubscriptionsLoop]
    by_cases hs : isSkippedSubscription s = true
    · rw [if_pos hs]
      exact ih acc rq hmem hkrest
    · rw [if_neg hs]
      rcases hps : (processSubscription env avr s).1 with ⟨pd, nr⟩
      cases nr with
      | true =>
        simp only [hps]
        exact ih acc true hmem hkrest
      | false =>
        cases pd with
        | some d2 =>
          simp only [hps, Bool.false_eq_true, if_false]
          exact ih _ rq (mapSet_mem_of_ne s.name d2 hmem
            (fun hc => hk s (List.mem_cons_self s rest) hc.symm)) hkrest
        | none =>
          simp only [hps, Bool.false_eq_true, if_false]
          exact ih acc rq hmem hkrest

lemma processSubscriptionsLoop_mem (env : Env) (avr : AVR)
    (subs : List Subscription) (sub : Subscription)
    (d : SubscriptionPlacementDecision) :
    ∀ acc rq, sub ∈ subs → (subs.map Subscription.name).Nodup →
      isSkippedSubscription sub = false →
      (processSubscription env avr sub).1 = (some d, false) →
      (sub.name, d) ∈ (processSubscriptionsLoop env avr acc rq subs).1 := by
  induction subs with
  | nil => intro acc rq hmem; cases hmem
  | cons s rest ih =>
    intro acc rq hmem hnd hskip hproc
    rw [List.map_cons] at hnd
    have hnd2 := List.nodup_cons.mp hnd
    rcases List.mem_cons.mp hmem with heq | hmem2
    · subst heq
      rw [processSubscriptionsLoop,
        if_neg (by rw [hskip]; exact Bool.false_ne_true)]
      simp only [hproc, Bool.false_eq_true, if_false]
      refine processSubscriptionsLoop_preserves env avr rest sub.name d _ rq
        (mapSet_self_mem acc sub.name d) ?_
      intro t ht hc
      exact hnd2.1 (hc ▸ List.mem_map_of_mem Subscription.name ht)
    · rw [processSubscriptionsLoop]
      by_cases hs : isSkippedSubscription s = true
      · rw [if_pos hs]
        exact ih acc rq hmem2 hnd2.2 hskip hproc
      · rw [if_neg hs]
        rcases hps : (processSubscription env avr s).1 with ⟨pd, nr⟩
        cases nr with
        | true =>
          simp only [hps]
          exact ih acc true hmem2 hnd2.2 hskip hproc
        | false =>
          cases pd with
          | some d2 =>
            simp only [hps, Bool.false_eq_true, if_false]
            exact ih _ rq hmem2 hnd2.2 hskip hproc
          | none =>
            simp only [hps, Bool.false_eq_true, if_false]
            exact ih acc rq hmem2 hnd2.2 hskip hproc

lemma processSubscriptionsLoop_skip_frame (env : Env) (avr : AVR)
    (s : Subscription) (hs : isSkippedSubscription s = true) :
    ∀ l1 l2 acc rq, processSubscriptionsLoop env avr acc rq (l1 ++ s :: l2) =
      processSubscriptionsLoop env avr acc rq (l1 ++ l2) := by
  intro l1
  induction l1 with
  | nil =>
    intro l2 acc rq
    rw [List.nil_append, List.nil_append, processSubscriptionsLoop, if_pos hs]
  | cons t ts ih =>
    intro l2 acc rq
    rw [List.cons_append, List.cons_append, processSubscriptionsLoop,
      processSubscriptionsLoop]
    by_cases ht : isSkippedSubscription t = true
    · rw [if_pos ht, if_pos ht, ih]
    · rw [if_neg ht, if_neg ht]
      rcases hpt : (processSubscription env avr t).1 with ⟨pd, nr⟩
      cases nr with
      | true =>
        simp only [hpt]
        simp [ih]
      | false =>
        cases pd with
        | some d2 =>
          simp only [hpt, Bool.false_eq_true, if_false]
          rw [ih]
        | none =>
          simp only [hpt, Bool.false_eq_true, if_false]
          rw [ih]

/-! ## Claim C5 -/

/-- C5: in one pass the global requeue flag is the disjunction of the requeue
outcomes of the individually processed (non-skipped) subscriptions; every
non-skipped subscription whose processing succeeds with a decision gets its
entry in the decision map no matter how the other subscriptions fared
(partial-failure isolation); and a skipped subscription contributes nothing —
removing it from the list changes neither the map nor the flag. -/
theorem processSubscriptions_partial_failure_isolation (env : Env) (avr : AVR)
    (subs : List Subscription) :
    ((processSubscriptions env avr subs).2 =
      subs.any (fun s => !isSkippedSubscription s &&
        (processSubscription env avr s).1.2))
    ∧ (∀ sub ∈ subs, (subs.map Subscription.name).Nodup →
        isSkippedSubscription sub = false →
        ∀ d, (processSubscription env avr sub).1 = (some d, false) →
          (sub.name, d) ∈ (processSubscriptions env avr subs).1)
    ∧ (∀ l1 s l2, subs = l1 ++ s :: l2 → isSkippedSubscription s = true →
        processSubscriptions env avr subs =
          processSubscriptions env avr (l1 ++ l2)) := by
  refine ⟨?_, ?_, ?_⟩
  · rw [processSubscriptions, processSubscriptionsLoop_requeue]
    simp
  · intro sub hmem hnd hskip d hproc
    exact processSubscriptionsLoop_mem env avr subs sub d [] false hmem hnd
      hskip hproc
  · intro l1 s l2 hsubs hs
    rw [processSubscriptions, processSubscriptions, hsubs,
      processSubscriptionsLoop_skip_frame env avr s hs]

/-- First subscription of the partial-failure witness: propagated, hub-side,
with a status entry for east and a resolvable placement rule. -/
def subW1 : Subscription :=
  { name := "app1"
    subNamespace := "ns"
    labels := none
    placement := some
      { localPlacement := none
        placementRef := some { name := "pr", refNamespace := "ns" } }
    status :=
      { phase := SubscriptionPropagated
        statuses := some [("east", true)] } }

/-- Second subscription: its placement-rule fetch fails remotely. -/
def subW2 : Subscription :=
  { subW1 with
    name := "app2"
    placement := some
      { localPlacement := none
        placementRef := some { name := "pr2", refNamespace := "ns" } } }

/-- Third subscription: same shape as the first. -/
def subW3 : Subscription := { subW1 with name := "app3" }

/-- Environment for the partial-failure witness: fetching the placement rule
named `"pr2"` fails with a remote I/O error, everything else succeeds. -/
def envW : Env :=
  { envPair with
    getPlacementRule := fun n _ =>
      if n = "pr2" then .error "RemoteIOError" else .ok prPair }

/-- Witness for C5: with the second of three subscriptions failing on its
placement-rule fetch, the pass still records decisions for the first and the
third, and the global requeue flag is set. -/
theorem processSubscriptions_partial_failure_isolation_witness :
    (processSubscriptions envW avrSample [subW1, subW2, subW3]).2 = true ∧
    ("app1", { homeCluster := "east", peerCluster := "west" }) ∈
      (processSubscriptions envW avrSample [subW1, subW2, subW3]).1 ∧
    ("app3", { homeCluster := "east", peerCluster := "west" }) ∈
      (processSubscriptions envW avrSample [subW1, subW2, subW3]).1 := by
  have h := processSubscriptions_partial_failure_isolation envW avrSample
    [subW1, subW2, subW3]
  refine ⟨?_, ?_, ?_⟩
  · rw [h.1]
    decide
  · exact h.2.1 subW1 (by decide) (by decide) (by decide)
      { homeCluster := "east", peerCluster := "west" } (by decide)
  · exact h.2.1 subW3 (by decide) (by decide) (by decide)
      { homeCluster := "east", peerCluster := "west" } (by decide)

/-! ## Claim C7 -/

/-- Trace-count concatenation laws. -/
lemma countCreates_append (xs ys : List Op) :
    countCreates (xs ++ ys) = countCreates xs + countCreates ys := by
  rw [countCreates, countCreates, countCreates, List.filter_append,
    List.length_append]

lemma countUpdates_append (xs ys : List Op) :
    countUpdates (xs ++ ys) = countUpdates xs + countUpdates ys := by
  rw [countUpdates, countUpdates, countUpdates, List.filter_append,
    List.length_append]

/-- C7: for a paused subscription whose PV restore bundle already exists on
the failover cluster, the sequencer returns that bundle having issued no
write at all (no stale-role deletion, no restore); with the bundle not yet
applied the subscription's outcome is requeue with no decision and an empty
write trace — so a second identical pass behaves identically and no second
restore bundle is ever created. -/
theorem paused_existing_restore_bundle_waits (env : Env) (avr : AVR)
    (sub : Subscription) (mw : ManifestWork)
    (hp : isSubsriptionPausedForDR sub.labels = true)
    (hh : findNextHomeCluster avr sub ≠ "")
    (hmw : env.getMW (manifestWorkName sub.name sub.subNamespace MWTypePV)
      (findNextHomeCluster avr sub) = .ok (some mw))
    (hna : (IsManifestInAppliedState mw).1 = false) :
    processPausedSubscription env avr sub =
      (.ok (findNextHomeCluster avr sub, some mw), [])
    ∧ processSubscription env avr sub = ((none, true), [])
    ∧ countCreates ((processSubscription env avr sub).2 ++
        (processSubscription env avr sub).2) = 0 := by
  have hfind : findManifestWork env sub (findNextHomeCluster avr sub) MWTypePV =
      .ok (some mw) := by
    rw [findManifestWork, if_neg hh]
    exact hmw
  have hpps : processPausedSubscription env avr sub =
      (.ok (findNextHomeCluster avr sub, some mw), []) := by
    simp only [processPausedSubscription, if_neg hh, hfind]
  have hwait : waitForManifest env sub (findNextHomeCluster avr sub) (some mw) =
      true := by
    simp only [waitForManifest, hna]
    rfl
  have hps : processSubscription env avr sub = ((none, true), []) := by
    simp only [processSubscription, hp, if_true, hpps, hwait]
  refine ⟨hpps, hps, ?_⟩
  rw [hps]
  rfl

/-- The labels of a subscription paused for DR. -/
def pausedLabels : List (String × String) :=
  [("ramendr", "protected"), ("subscription-pause", "true")]

/-- The paused subscription used by the failover witnesses. -/
def subPaused : Subscription :=
  { name := "app1"
    subNamespace := "ns"
    labels := some pausedLabels
    placement := none
    status := { phase := "", statuses := none } }

/-- The PV restore bundle already sitting on the failover cluster, not yet
applied (no conditions reported). -/
def pvSample : ManifestWork :=
  { name := "app1-ns-pv-mw", mwNamespace := "west", labels := [("app", "PV")],
    spec := { manifests := ["pv1"] }, conditions := [] }

/-- Environment for the C7 witness: the store holds exactly the PV bundle on
west. -/
def envC7 : Env :=
  { envAbsent with
    getMW := fun n ns =>
      if n = "app1-ns-pv-mw" ∧ ns = "west" then .ok (some pvSample)
      else .ok none }

/-- Witness for C7: the concrete paused pass requeues without writing. -/
theorem paused_existing_restore_bundle_waits_witness :
    processSubscription envC7 avrSample subPaused = ((none, true), []) :=
  (paused_existing_restore_bundle_waits envC7 avrSample subPaused pvSample
    (by decide) (by decide) rfl rfl).2.1

/-! ## Claim C8 -/

/-- Stale-work deletion issues only delete calls, never creates or updates. -/
lemma deleteExisting_writes_only_deletes (env : Env) (avr : AVR)
    (sub : Subscription) :
    countCreates (deleteExistingManfiestWork env avr sub).2 = 0 ∧
    countUpdates (deleteExistingManfiestWork env avr sub).2 = 0 := by
  simp only [deleteExistingManfiestWork]
  rcases hl : avr.status.decisions.lookup sub.name with _ | d
  · simp only [hl]
    exact ⟨rfl, rfl⟩
  · simp only [hl]
    rcases hg : env.getMW (manifestWorkName sub.name sub.subNamespace MWTypeVRG)
        d.homeCluster with e | o
    · simp only [hg]
      exact ⟨rfl, rfl⟩
    · rcases o with _ | mw
      · simp only [hg]
        exact ⟨rfl, rfl⟩
      · simp only [hg]
        exact ⟨rfl, rfl⟩

/-- C8: for a paused subscription with no existing restore bundle whose
backup store returns an empty volume set, the restore step is a no-op, the
applied-wait does not hold the pass up, and — the unpause label patch
succeeding — the subscription's outcome is requeue with no decision and with
no bundle create or update issued anywhere in the pass. -/
theorem paused_empty_backup_skips_straight_to_unpause (env : Env) (avr : AVR)
    (sub : Subscription)
    (hp : isSubsriptionPausedForDR sub.labels = true)
    (hh : findNextHomeCluster avr sub ≠ "")
    (hmw : env.getMW (manifestWorkName sub.name sub.subNamespace MWTypePV)
      (findNextHomeCluster avr sub) = .ok none)
    (hdel : (deleteExistingManfiestWork env avr sub).1 = .ok ())
    (hdl : env.downloadPVs avr.spec.s3Endpoint avr.spec.s3SecretName avr.name
      (constructBucketName sub.subNamespace sub.name) = .ok [])
    (hup : env.subUpdateRes = .ok ()) :
    restorePVFromBackup env avr sub (findNextHomeCluster avr sub) = (.ok (), [])
    ∧ waitForManifest env sub (findNextHomeCluster avr sub) none = false
    ∧ (processSubscription env avr sub).1 = (none, true)
    ∧ countCreates (processSubscription env avr sub).2 = 0
    ∧ countUpdates (processSubscription env avr sub).2 = 0 := by
  have hfind : findManifestWork env sub (findNextHomeCluster avr sub) MWTypePV =
      .ok none := by
    rw [findManifestWork, if_neg hh]
    exact hmw
  have hrest : restorePVFromBackup env avr sub (findNextHomeCluster avr sub) =
      (.ok (), []) := by
    simp only [restorePVFromBackup, listPVsFromS3Store, hdl, List.length_nil,
      if_true]
  have hwait : waitForManifest env sub (findNextHomeCluster avr sub) none =
      false := by
    simp only [waitForManifest, hfind]
  rcases hde : deleteExistingManfiestWork env avr sub with ⟨du, dops⟩
  have hdu : du = .ok () := by
    rw [hde] at hdel
    exact hdel
  subst hdu
  have hdops : countCreates dops = 0 ∧ countUpdates dops = 0 := by
    have h := deleteExisting_writes_only_deletes env avr sub
    rw [hde] at h
    exact h
  have hpps : processPausedSubscription env avr sub =
      (.ok (findNextHomeCluster avr sub, none), dops ++ []) := by
    simp only [processPausedSubscription, if_neg hh, hfind, hde, hrest]
  rcases hlab : sub.labels with _ | l
  · rw [hlab] at hp
    exact absurd hp (by decide)
  · have hunp : unpauseSubscription env sub =
        (.ok (),
          { sub with labels := some (mapSet l LabelSubscriptionPause "false") },
          [Op.subUpdateOp { sub with labels := some (mapSet l LabelSubscriptionPause "false") }]) := by
      simp only [unpauseSubscription, hlab, hup]
    have hps : processSubscription env avr sub = ((none, true),
        (dops ++ []) ++
          [Op.subUpdateOp { sub with labels := some (mapSet l LabelSubscriptionPause "false") }]) := by
      simp only [processSubscription, hp, if_true, hpps, hwait, hunp,
        Bool.false_eq_true, if_false]
    refine ⟨hrest, hwait, ?_, ?_, ?_⟩
    · rw [hps]
    · rw [hps, countCreates_append, countCreates_append, hdops.1]
      rfl
    · rw [hps, countUpdates_append, countUpdates_append, hdops.2]
      rfl

/-- Environment for the C8 witness: nothing exists in the store and the
backup store is empty. -/
def envC8 : Env := envAbsent

/-- Witness for C8: the concrete paused pass with an empty backup set ends in
requeue with no decision and no bundle writes. -/
theorem paused_empty_backup_skips_straight_to_unpause_witness :
    (processSubscription envC8 avrSample subPaused).1 = (none, true) ∧
    countCreates (processSubscription envC8 avrSample subPaused).2 = 0 :=
  have h := paused_empty_backup_skips_straight_to_unpause envC8 avrSample
    subPaused (by decide) (by decide) rfl rfl rfl rfl
  ⟨h.2.2.1, h.2.2.2.1⟩

/-! ## Claim C10 -/

lemma mapSet_lookup_self {α : Type} (m : List (String × α)) (k : String) (v : α) :
    (mapSet m k v).lookup k = some v := by
  induction m with
  | nil => simp [mapSet, List.lookup]
  | cons p rest ih =>
    obtain ⟨k0, v0⟩ := p
    rw [mapSet]
    by_cases h : k0 = k
    · rw [if_pos h]
      simp [List.lookup]
    · rw [if_neg h]
      have hne : (k == k0) = false := beq_eq_false_iff_ne.mpr (fun hc => h hc.symm)
      simp [List.lookup, hne, ih]

lemma mapSet_lookup_ne {α : Type} (m : List (String × α)) (k k2 : String) (v : α)
    (h : k2 ≠ k) : (mapSet m k v).lookup k2 = m.lookup k2 := by
  induction m with
  | nil =>
    have hne : (k2 == k) = false := beq_eq_false_iff_ne.mpr h
    simp [mapSet, List.lookup, hne]
  | cons p rest ih =>
    obtain ⟨k0, v0⟩ := p
    rw [mapSet]
    by_cases hk : k0 = k
    · rw [if_pos hk]
      have hne : (k2 == k) = false := beq_eq_false_iff_ne.mpr h
      have hne0 : (k2 == k0) = false := beq_eq_false_iff_ne.mpr (hk ▸ h)
      simp [List.lookup, hne, hne0]
    · rw [if_neg hk]
      by_cases h2 : k2 = k0
      · have hq : (k2 == k0) = true := beq_iff_eq.mpr h2
        simp [List.lookup, hq]
      · have hq : (k2 == k0) = false := beq_eq_false_iff_ne.mpr h2
        simp [List.lookup, hq, ih]

/-- C10: unpausing a subscription with a nil label map errors without issuing
any store update and leaves the subscription unchanged; with a non-nil map it
sets exactly the pause label to "false" — every other label, in particular the
DR-state label, keeps its value — and only then issues the one update carrying
that subscription. -/
theorem unpause_nil_labels_error_and_exact_patch (env : Env)
    (sub : Subscription) :
    (sub.labels = none →
      unpauseSubscription env sub =
        (.error ("failed to find labels for subscription " ++ sub.name),
          sub, []))
    ∧ (∀ l, sub.labels = some l →
        ((unpauseSubscription env sub).2.1 =
            { sub with labels := some (mapSet l LabelSubscriptionPause "false") }
         ∧ (mapSet l LabelSubscriptionPause "false").lookup
             LabelSubscriptionPause = some "false"
         ∧ (∀ k, k ≠ LabelSubscriptionPause →
             (mapSet l LabelSubscriptionPause "false").lookup k = l.lookup k)
         ∧ (mapSet l LabelSubscriptionPause "false").lookup RamenDRLabelName =
             l.lookup RamenDRLabelName
         ∧ (unpauseSubscription env sub).2.2 =
             [Op.subUpdateOp (unpauseSubscription env sub).2.1])) := by
  constructor
  · intro h
    simp only [unpauseSubscription, h]
  · intro l h
    have hu : unpauseSubscription env sub =
        (env.subUpdateRes,
          { sub with labels := some (mapSet l LabelSubscriptionPause "false") },
          [Op.subUpdateOp { sub with labels := some (mapSet l LabelSubscriptionPause "false") }]) := by
      simp only [unpauseSubscription, h]
    refine ⟨by rw [hu], mapSet_lookup_self l LabelSubscriptionPause "false",
      fun k hk => mapSet_lookup_ne l LabelSubscriptionPause k "false" hk,
      mapSet_lookup_ne l LabelSubscriptionPause RamenDRLabelName "false"
        (by decide), ?_⟩
    rw [hu]

/-- A subscription with a nil label map. -/
def subNoLabels : Subscription := { subPaused with labels := none }

/-- Witness for C10: the nil-label error path leaves the subscription alone,
and on the paused sample the patch sets the pause label and keeps the
DR-state label. -/
theorem unpause_nil_labels_error_and_exact_patch_witness :
    unpauseSubscription envAbsent subNoLabels =
      (.error ("failed to find labels for subscription " ++ subNoLabels.name),
        subNoLabels, []) ∧
    (unpauseSubscription envAbsent subPaused).2.1 =
      { subPaused with labels := some (mapSet pausedLabels LabelSubscriptionPause "false") } :=
  ⟨(unpause_nil_labels_error_and_exact_patch envAbsent subNoLabels).1 rfl,
   ((unpause_nil_labels_error_and_exact_patch envAbsent subPaused).2
     pausedLabels rfl).1⟩

end Ramen
